import Mathlib

set_option maxHeartbeats 1000000

namespace PolyRace

/-! Shallow embedding of the PolyRacer multiplayer server
(src/server/server.js) and the fields its bundled client reads
(src/game-multiplayer-client-new.js).

JS `Map`s become association lists (`alookup`/`aset`/`aerase`); room objects
live in a heap indexed by `Nat` references because `setTimeout` callbacks in
the source capture room *objects*, which outlive their entry in the `rooms`
map.  Each socket handler becomes a function from the payload, a context
(`Date.now()`, the freshly generated room code, socket connectivity) and the
server state to a result holding the new state, the `emit` calls made (in
order) and the timers scheduled.  Handlers that can throw (unguarded
destructuring of a missing payload) return `Except Unit _`, where `.error ()`
is an exception escaping the handler. -/

/-- Association-list lookup, modelling JS `Map.get`. -/

def alookup {κ α : Type} [DecidableEq κ] (k : κ) : List (κ × α) → Option α
  | [] => none
  | (k1, v) :: l => if k1 = k then some v else alookup k l

/-- Association-list insert-or-replace, modelling JS `Map.set`. -/

def aset {κ α : Type} [DecidableEq κ] (k : κ) (v : α) : List (κ × α) → List (κ × α)
  | [] => [(k, v)]
  | (k1, v1) :: l => if k1 = k then (k, v) :: l else (k1, v1) :: aset k v l

/-- Association-list delete, modelling JS `Map.delete`. -/

def aerase {κ α : Type} [DecidableEq κ] (k : κ) : List (κ × α) → List (κ × α)
  | [] => []
  | (k1, v1) :: l => if k1 = k then l else (k1, v1) :: aerase k l

/-- The `gameState` strings used by src/server/server.js:
`'waiting'`, `'in-game-lobby'`, `'countdown'`, `'playing'`, `'finished'`. -/

inductive GameState where
  | waiting
  | inGameLobby
  | countdown
  | playing
  | finished
deriving DecidableEq, Repr

/-- A per-room player record (the object literals pushed into `room.players`).
The JS literals omit `gameReady`, `animTime` and `velocity`; those fields are
`undefined` until first written, and every read coalesces them
(`p.gameReady || false`, falsy in `every`, `?? 0`), so `false`/`0` is the
faithful initial value. -/

structure RoomPlayer where
  socketId : String
  name : String
  position : Int
  progress : Int
  score : Int
  combo : Int
  ready : Bool
  gameReady : Bool
  animTime : Int
  velocity : Int
deriving DecidableEq, Repr

/-- The player object literal `{ socketId, name: player.name, position: 0,
progress: 0, score: 0, combo: 0, ready: false }` used by room:create,
room:join and match:random. -/

def newRoomPlayer (sid nm : String) : RoomPlayer :=
  { socketId := sid, name := nm, position := 0, progress := 0, score := 0,
    combo := 0, ready := false, gameReady := false, animTime := 0, velocity := 0 }

/-- A room object.  `name`/`maxPlayers` exist only on rooms made by
room:create (match:random rooms omit them); `startTime`, `endTime`,
`raceTimeMs` and `emptyAt` are `undefined` until assigned.  The source stores
`raceTime = ((endTime - startTime) / 1000).toFixed(1)` — a one-decimal
seconds string; we keep the underlying millisecond difference
`endTime - startTime` from which that string is formatted.
`gameSettings` (stored, never read) is omitted. -/

structure Room where
  code : String
  name : Option String
  host : String
  players : List RoomPlayer
  gameState : GameState
  winner : Option String
  createdAt : Nat
  maxPlayers : Option Nat
  startTime : Option Nat
  endTime : Option Nat
  raceTimeMs : Option Nat
  emptyAt : Option Nat
deriving DecidableEq, Repr

/-- An entry of the `players` map (`playerData` in player:register). -/

structure PlayerData where
  socketId : String
  name : String
  inGame : Bool
  roomCode : Option String
deriving DecidableEq, Repr

/-- One element of the list built by `getOnlinePlayers()`. -/

structure OnlinePlayer where
  socketId : String
  name : String
  status : String
deriving DecidableEq, Repr

/-- One element of the `game:players-update` payload list. -/

structure ReadyView where
  socketId : String
  name : String
  gameReady : Bool
deriving DecidableEq, Repr

/-- One element of the `game:update` payload list. -/

structure TelemetryView where
  socketId : String
  name : String
  position : Int
  progress : Int
  score : Int
  combo : Int
  animTime : Int
  velocity : Int
deriving DecidableEq, Repr

/-- The whole mutable server state: the module-level `rooms` and `players`
maps and the `waitingPlayers` array.  Room objects are stored in `roomHeap`
and the `rooms` map holds references into it, mirroring JS object identity;
`nextRef` supplies fresh references. -/

structure ServerState where
  roomHeap : List (Nat × Room)
  rooms : List (String × Nat)
  players : List (String × PlayerData)
  waitingPlayers : List String
  nextRef : Nat
deriving DecidableEq, Repr

/-- One `socket.emit` / `io.to(..).emit` / `io.emit` call, with the payload
fields the source actually sends.  `toSid` targets a single socket;
`toRoom` is the (possibly null) argument of `io.to(...)`. -/

inductive Emit where
  | roomSync (toSid : String) (room : Room)
  | roomError (toSid : String) (message : String)
  | playerRegistered (toSid : String) (playerId : String) (playerData : PlayerData)
  | playersOnline (count : Nat) (list : List OnlinePlayer)
  | roomCreated (toSid : String) (roomCode : String) (roomName : String) (room : Room)
  | roomJoined (toSid : String) (roomCode : String) (room : Room)
  | roomUpdated (toRoom : Option String) (room : Room) (playerCount : Nat)
  | matchFound (toRoom : Option String) (roomCode : String) (room : Room)
  | matchSearching (toSid : String)
  | matchTimeout (toSid : String)
  | gameCountdown (toRoom : Option String) (room : Room)
  | gameStart (toRoom : Option String) (room : Room)
  | gamePlayersUpdate (toRoom : Option String) (players : List ReadyView)
  | gameVerifiedCountdown (toRoom : Option String) (room : Room)
  | gameRaceStart (toRoom : Option String) (room : Room)
  | gameSyncFailed (toRoom : Option String) (message : String)
  | gameUpdate (toRoom : Option String) (players : List TelemetryView) (gameState : GameState)
  | gameFinished (toRoom : Option String) (winnerSocketId : String)
      (winnerName : String) (winnerScore : Int) (elapsedMs : Nat) (room : Room)
  | roomReset (toRoom : Option String) (room : Room)
  | roomPlayerLeft (toRoom : Option String) (socketId : String)
      (playerName : String) (room : Room)
  | chatMessage (username : String) (message : Option String) (timestampMs : Nat)
deriving DecidableEq, Repr

/-- The wire event name of each emit, as written in server.js. -/

def eventName : Emit → String
  | .roomSync .. => "room:sync"
  | .roomError .. => "room:error"
  | .playerRegistered .. => "player:registered"
  | .playersOnline .. => "players:online"
  | .roomCreated .. => "room:created"
  | .roomJoined .. => "room:joined"
  | .roomUpdated .. => "room:updated"
  | .matchFound .. => "match:found"
  | .matchSearching .. => "match:searching"
  | .matchTimeout .. => "match:timeout"
  | .gameCountdown .. => "game:countdown"
  | .gameStart .. => "game:start"
  | .gamePlayersUpdate .. => "game:players-update"
  | .gameVerifiedCountdown .. => "game:verified-countdown"
  | .gameRaceStart .. => "game:race-start"
  | .gameSyncFailed .. => "game:sync-failed"
  | .gameUpdate .. => "game:update"
  | .gameFinished .. => "game:finished"
  | .roomReset .. => "room:reset"
  | .roomPlayerLeft .. => "room:player-left"
  | .chatMessage .. => "chat:message"

/-- The property names of the object literal each emit sends, exactly as in
server.js (e.g. `socket.emit('room:joined', { roomCode, room })`). -/

def payloadKeys : Emit → List String
  | .roomSync .. => ["room"]
  | .roomError .. => ["message"]
  | .playerRegistered .. => ["playerId", "playerData"]
  | .playersOnline .. => ["count", "players"]
  | .roomCreated .. => ["roomCode", "roomName", "room"]
  | .roomJoined .. => ["roomCode", "room"]
  | .roomUpdated .. => ["room", "playerCount"]
  | .matchFound .. => ["roomCode", "room"]
  | .matchSearching .. => []
  | .matchTimeout .. => []
  | .gameCountdown .. => ["room"]
  | .gameStart .. => ["room"]
  | .gamePlayersUpdate .. => ["players"]
  | .gameVerifiedCountdown .. => ["room"]
  | .gameRaceStart .. => ["room"]
  | .gameSyncFailed .. => ["message"]
  | .gameUpdate .. => ["players", "gameState"]
  | .gameFinished .. => ["winner", "room"]
  | .roomReset .. => ["room"]
  | .roomPlayerLeft .. => ["socketId", "playerName", "room"]
  | .chatMessage .. => ["username", "message", "timestamp"]

/-- A scheduled `setTimeout`, recording the data its closure captures and the
delay in milliseconds. -/

inductive Timer where
  | lobbyStart (sid : String) (ref : Nat) (delayMs : Nat)
  | raceStart (sid : String) (ref : Nat) (delayMs : Nat)
  | rematch (sid : String) (ref : Nat) (delayMs : Nat)
  | emptyRoom (code : String) (ref : Nat) (delayMs : Nat)
  | matchTimeout (sid : String) (delayMs : Nat)
deriving DecidableEq, Repr

/-- The `player:update` payload (`data.positionX ?? data.position ?? 0` etc.;
absent fields are `undefined`, hence `Option`). -/

structure UpdateData where
  positionX : Option Int
  position : Option Int
  progress : Option Int
  score : Option Int
  combo : Option Int
  animTime : Option Int
  velocity : Option Int
deriving DecidableEq, Repr

/-- The `chat:send` payload fields read by the handler. -/

structure ChatData where
  username : Option String
  message : Option String
deriving DecidableEq, Repr

/-- Result of one handler invocation: the state after it ran to completion,
the emits it made (in order) and the timers it scheduled. -/

structure StepResult where
  state : ServerState
  emits : List Emit
  timers : List Timer
deriving DecidableEq, Repr

/-- Result of a possibly-throwing handler: `.error ()` models an exception thrown out of the
handler (server.js has no try/catch around any handler body). -/

abbrev HResult := Except Unit StepResult

/-- Ambient context of one handler run: `Date.now()`, the code produced by
`generateRoomCode()` (random, collision-checked against live rooms), and the
`io.sockets.sockets.get(id)?.connected` test. -/

structure Ctx where
  now : Nat
  freshCode : String
  isConnected : String → Bool

/-- JS `x || d` for strings: `undefined` and the empty string are falsy. -/

def falsyOr (o : Option String) (d : String) : String :=
  match o with
  | some s => if s = "" then d else s
  | none => d

/-- JS `a ?? b ?? 0` for numbers (`??` fires only on null/undefined). -/

def coalesce2 (a b : Option Int) : Int :=
  match a with
  | some x => x
  | none => match b with
    | some y => y
    | none => 0

/-- The lookup `rooms.get(code)` resolved through the heap, with the reference. -/

def getRoomRef (code : String) (s : ServerState) : Option (Nat × Room) :=
  match alookup code s.rooms with
  | none => none
  | some ref =>
    match alookup ref s.roomHeap with
    | none => none
    | some room => some (ref, room)

/-- The room object `rooms.get(code)` currently resolves to. -/

def getRoom (code : String) (s : ServerState) : Option Room :=
  (getRoomRef code s).map (·.2)

/-- Model of `room.players.find(p => p.socketId === sid)` followed by an in-place
mutation of the found record: updates the first match only. -/

def setFirstRP (sid : String) (f : RoomPlayer → RoomPlayer) :
    List RoomPlayer → List RoomPlayer
  | [] => []
  | p :: ps => if p.socketId = sid then f p :: ps else p :: setFirstRP sid f ps

/-- The `getOnlinePlayers()` helper from server.js. -/

def getOnlinePlayers (ps : List (String × PlayerData)) : List OnlinePlayer :=
  ps.map (fun kv =>
    { socketId := kv.2.socketId, name := kv.2.name,
      status := if kv.2.inGame then "in-game" else "online" })

/-- A handler result with no mutation, no emits, no timers (a bare
`return`). -/

def noop (s : ServerState) : StepResult := ⟨s, [], []⟩

/-- The `room:sync:request` handler.  Its parameter destructures the payload
(`({ roomCode }) => ...`), so a missing payload throws before anything
runs. -/

def syncRequestH (sid : String) (payload : Option (Option String))
    (s : ServerState) : HResult :=
  match payload with
  | none => .error ()
  | some rc =>
    match rc.bind (fun c => getRoom c s) with
    | some room => .ok ⟨s, [.roomSync sid room], []⟩
    | none => .ok ⟨s, [.roomError sid "Room not found"], []⟩

/-- The `player:register` handler.  `data.name` on an undefined payload
throws; with a name it stores the playerData and broadcasts the online
list. -/

def registerH (sid : String) (payload : Option String) (s : ServerState) :
    HResult :=
  match payload with
  | none => .error ()
  | some nm =>
    let pd : PlayerData := { socketId := sid, name := nm, inGame := false, roomCode := none }
    let players1 := aset sid pd s.players
    .ok ⟨{ s with players := players1 },
      [.playerRegistered sid sid pd,
       .playersOnline players1.length (getOnlinePlayers players1)], []⟩

/-- The `player:update-name` handler. -/

def updateNameH (sid : String) (payload : Option String) (s : ServerState) :
    HResult :=
  match alookup sid s.players with
  | none => .ok (noop s)
  | some player =>
    match payload with
    | none => .error ()
    | some newName =>
      let players1 := aset sid { player with name := newName } s.players
      let s1 := { s with players := players1 }
      let inner : ServerState × List Emit :=
        match player.roomCode with
        | none => (s1, [])
        | some code =>
          match getRoomRef code s1 with
          | none => (s1, [])
          | some (ref, room) =>
            match room.players.find? (fun p => decide (p.socketId = sid)) with
            | none => (s1, [])
            | some _ =>
              let room1 := { room with
                players := setFirstRP sid (fun (p : RoomPlayer) => { p with name := newName }) room.players }
              ({ s1 with roomHeap := aset ref room1 s1.roomHeap },
               [.roomUpdated (some code) room1 room1.players.length])
      .ok ⟨inner.1, inner.2 ++
        [.playersOnline players1.length (getOnlinePlayers players1)], []⟩

/-- The `room:create` handler.  `data?.roomName`/`data?.maxPlayers` are
optional-chained, so a missing payload cannot throw. -/

def createRoomH (sid : String) (roomName : Option String)
    (maxPlayers : Option Nat) (ctx : Ctx) (s : ServerState) : StepResult :=
  match alookup sid s.players with
  | none => ⟨s, [.roomError sid "Player not registered"], []⟩
  | some player =>
    let code := ctx.freshCode
    let nm := falsyOr roomName (player.name ++ "\x27s Room")
    let mp := match maxPlayers with
      | some 0 => 2
      | some m => m
      | none => 2
    let room : Room :=
      { code := code, name := some nm, host := sid,
        players := [newRoomPlayer sid player.name],
        gameState := .waiting, winner := none, createdAt := ctx.now,
        maxPlayers := some mp, startTime := none, endTime := none,
        raceTimeMs := none, emptyAt := none }
    ⟨{ s with
        roomHeap := aset s.nextRef room s.roomHeap,
        rooms := aset code s.nextRef s.rooms,
        players := aset sid { player with roomCode := some code, inGame := true } s.players,
        nextRef := s.nextRef + 1 },
      [.roomCreated sid code nm room], []⟩

/-- The `room:join` handler.  Its first line `const { roomCode } = data`
throws on a missing payload; the validation order then is: player
registered, room found, room not full (`>= 2`), room state in
`joinableStates = ['waiting', 'in-game-lobby', 'finished']`. -/

def joinRoomH (sid : String) (payload : Option (Option String)) (s : ServerState) :
    HResult :=
  match payload with
  | none => .error ()
  | some rc =>
    let player := alookup sid s.players
    match player with
    | none => .ok ⟨s, [.roomError sid "Player not registered"], []⟩
    | some player =>
      match rc with
      | none => .ok ⟨s, [.roomError sid "Room not found"], []⟩
      | some code =>
        match getRoomRef code s with
        | none => .ok ⟨s, [.roomError sid "Room not found"], []⟩
        | some (ref, room) =>
          if 2 ≤ room.players.length then
            .ok ⟨s, [.roomError sid "Room is full"], []⟩
          else if room.gameState = .waiting ∨ room.gameState = .inGameLobby ∨
              room.gameState = .finished then
            let room1 := { room with players := room.players ++ [newRoomPlayer sid player.name] }
            .ok ⟨{ s with
                roomHeap := aset ref room1 s.roomHeap,
                players := aset sid { player with roomCode := some code, inGame := true } s.players },
              [.roomJoined sid code room1,
               .roomUpdated (some code) room1 room1.players.length], []⟩
          else
            .ok ⟨s, [.roomError sid "Game in progress. Please wait for the race to finish."], []⟩

/-- The `match:random` handler: pops the queue head as opponent if the queue
is non-empty (re-enqueueing the requester if the popped identity is gone),
else enqueues the requester with a 30s timeout. -/

def matchRandomH (sid : String) (ctx : Ctx) (s : ServerState) : StepResult :=
  match alookup sid s.players with
  | none => ⟨s, [.roomError sid "Player not registered"], []⟩
  | some player =>
    match s.waitingPlayers with
    | opponentId :: rest =>
      match alookup opponentId s.players with
      | none =>
        ⟨{ s with waitingPlayers := rest ++ [sid] }, [.matchSearching sid], []⟩
      | some opponent =>
        let code := ctx.freshCode
        let room : Room :=
          { code := code, name := none, host := opponentId,
            players := [newRoomPlayer opponentId opponent.name,
                        newRoomPlayer sid player.name],
            gameState := .waiting, winner := none, createdAt := ctx.now,
            maxPlayers := none, startTime := none, endTime := none,
            raceTimeMs := none, emptyAt := none }
        let ps1 := aset opponentId { opponent with roomCode := some code, inGame := true } s.players
        let ps2 := aset sid { player with roomCode := some code, inGame := true } ps1
        ⟨{ s with
            roomHeap := aset s.nextRef room s.roomHeap,
            rooms := aset code s.nextRef s.rooms,
            players := ps2,
            waitingPlayers := rest,
            nextRef := s.nextRef + 1 },
          [.matchFound (some code) code room], []⟩
    | [] =>
      ⟨{ s with waitingPlayers := s.waitingPlayers ++ [sid] },
        [.matchSearching sid], [.matchTimeout sid 30000]⟩

/-- The `player:ready` handler (lobby ready-up): marks ready, rebroadcasts
the room, and when everyone (≥ 2) is ready while still `waiting`, moves to
`in-game-lobby`, clears `gameReady` flags, emits `game:countdown` and
schedules the 4s `game:start` redirect timer. -/

def playerReadyH (sid : String) (s : ServerState) : StepResult :=
  match alookup sid s.players with
  | none => noop s
  | some player =>
    match player.roomCode with
    | none => noop s
    | some code =>
      match getRoomRef code s with
      | none => noop s
      | some (ref, room) =>
        let room1 := { room with
          players := setFirstRP sid (fun (p : RoomPlayer) => { p with ready := true }) room.players }
        let e1 := Emit.roomUpdated (some code) room1 room1.players.length
        if 2 ≤ room1.players.length ∧ room1.players.all (fun p => p.ready) ∧
            room1.gameState = .waiting then
          let room2 := { room1 with
            gameState := .inGameLobby,
            players := room1.players.map (fun (p : RoomPlayer) => { p with gameReady := false }) }
          ⟨{ s with roomHeap := aset ref room2 s.roomHeap },
            [e1, .gameCountdown (some code) room2],
            [.lobbyStart sid ref 4000]⟩
        else
          ⟨{ s with roomHeap := aset ref room1 s.roomHeap }, [e1], []⟩

/-- The `player:game-ready` handler: only meaningful in `in-game-lobby`;
marks `gameReady`, broadcasts `game:players-update`, and when all (≥ 2) are
game-ready it verifies connectivity and either enters `countdown` (emitting
`game:verified-countdown { room }` and scheduling the 4s race-start timer) or
emits `game:sync-failed`. -/

def gameReadyH (sid : String) (ctx : Ctx) (s : ServerState) : StepResult :=
  match alookup sid s.players with
  | none => noop s
  | some player =>
    match player.roomCode with
    | none => noop s
    | some code =>
      match getRoomRef code s with
      | none => noop s
      | some (ref, room) =>
        if room.gameState = .inGameLobby then
          let room1 := { room with
            players := setFirstRP sid (fun (p : RoomPlayer) => { p with gameReady := true }) room.players }
          let e1 := Emit.gamePlayersUpdate (some code)
            (room1.players.map (fun p => ReadyView.mk p.socketId p.name p.gameReady))
          if 2 ≤ room1.players.length ∧ room1.players.all (fun p => p.gameReady) then
            let connected : List RoomPlayer :=
              room1.players.filter (fun p => ctx.isConnected p.socketId)
            if connected.length = room1.players.length then
              let room2 := { room1 with gameState := .countdown }
              ⟨{ s with roomHeap := aset ref room2 s.roomHeap },
                [e1, .gameVerifiedCountdown (some code) room2],
                [.raceStart sid ref 4000]⟩
            else
              ⟨{ s with roomHeap := aset ref room1 s.roomHeap },
                [e1, .gameSyncFailed (some code)
                  "Player sync failed. Please ensure both players are connected."], []⟩
          else
            ⟨{ s with roomHeap := aset ref room1 s.roomHeap }, [e1], []⟩
        else noop s

/-- The `player:update` handler (Position Relay): only while `playing`;
stores the coalesced telemetry into the sender's record when present, then
always rebroadcasts the full roster.  The payload is only dereferenced inside
`if (rp)`, so it throws only when the sender is found. -/

def playerUpdateH (sid : String) (payload : Option UpdateData)
    (s : ServerState) : HResult :=
  match alookup sid s.players with
  | none => .ok (noop s)
  | some player =>
    match player.roomCode with
    | none => .ok (noop s)
    | some code =>
      match getRoomRef code s with
      | none => .ok (noop s)
      | some (ref, room) =>
        if room.gameState = .playing then
          match room.players.find? (fun p => decide (p.socketId = sid)) with
          | some _ =>
            match payload with
            | none => .error ()
            | some d =>
              let room1 := { room with
                players := setFirstRP sid (fun p =>
                  { p with
                    position := coalesce2 d.positionX d.position,
                    progress := d.progress.getD 0,
                    score := d.score.getD 0,
                    combo := d.combo.getD 0,
                    animTime := d.animTime.getD 0,
                    velocity := d.velocity.getD 0 }) room.players }
              .ok ⟨{ s with roomHeap := aset ref room1 s.roomHeap },
                [.gameUpdate (some code)
                  (room1.players.map (fun p =>
                    TelemetryView.mk p.socketId p.name p.position p.progress
                      p.score p.combo p.animTime p.velocity)) room1.gameState], []⟩
          | none =>
            .ok ⟨s,
              [.gameUpdate (some code)
                (room.players.map (fun p =>
                  TelemetryView.mk p.socketId p.name p.position p.progress
                    p.score p.combo p.animTime p.velocity)) room.gameState], []⟩
        else .ok (noop s)

/-- The `player:finished` handler: only while `playing`; the first caller
(while `winner` is unset) becomes the winner, the room moves to `finished`,
`endTime`/`raceTime` are computed and `game:finished` is broadcast, then the
10s rematch-reset timer is scheduled. -/

def playerFinishedH (sid : String) (ctx : Ctx) (s : ServerState) : StepResult :=
  match alookup sid s.players with
  | none => noop s
  | some player =>
    match player.roomCode with
    | none => noop s
    | some code =>
      match getRoomRef code s with
      | none => noop s
      | some (ref, room) =>
        if room.gameState = .playing then
          match room.winner with
          | some _ => noop s
          | none =>
            let elapsed := ctx.now - room.startTime.getD 0
            let room1 := { room with
              winner := some sid, gameState := .finished,
              endTime := some ctx.now, raceTimeMs := some elapsed }
            let wp := room1.players.find? (fun p => decide (p.socketId = sid))
            ⟨{ s with roomHeap := aset ref room1 s.roomHeap },
              [.gameFinished (some code) sid player.name
                (match wp with | some p => p.score | none => 0) elapsed room1],
              [.rematch sid ref 10000]⟩
        else noop s

/-- The `room:leave` handler: removes the leaver, broadcasts
`room:player-left`, and — unlike the disconnect path — deletes the room from
the map synchronously when it becomes empty; finally clears the player's
`roomCode`/`inGame`. -/

def roomLeaveH (sid : String) (s : ServerState) : StepResult :=
  match alookup sid s.players with
  | none => noop s
  | some player =>
    match player.roomCode with
    | none => noop s
    | some code =>
      let inner : ServerState × List Emit :=
        match getRoomRef code s with
        | none => (s, [])
        | some (ref, room) =>
          let players1 := room.players.filter (fun p => ¬(p.socketId = sid))
          let room1 := { room with players := players1 }
          let s1 := { s with roomHeap := aset ref room1 s.roomHeap }
          let s2 := if players1.isEmpty then { s1 with rooms := aerase code s1.rooms } else s1
          (s2, [.roomPlayerLeft (some code) sid player.name room1])
      ⟨{ inner.1 with
          players := aset sid { player with roomCode := none, inGame := false } inner.1.players },
        inner.2, []⟩

/-- The `chat:send` handler: `data.username || player.name` and
`data.message` are read after the registration guard, so a missing payload
throws only for registered senders. -/

def chatSendH (sid : String) (payload : Option ChatData) (ctx : Ctx)
    (s : ServerState) : HResult :=
  match alookup sid s.players with
  | none => .ok (noop s)
  | some player =>
    match payload with
    | none => .error ()
    | some d =>
      .ok ⟨s, [.chatMessage (falsyOr d.username player.name) d.message ctx.now], []⟩

/-- The `disconnect` handler: removes the player from its room and broadcasts
`room:player-left`; when the room becomes empty it is kept alive, stamped
with `emptyAt` and a 30s deletion timer is scheduled.  Then the player is
removed from the matchmaking queue and the registry, and the online list is
rebroadcast. -/

def disconnectH (sid : String) (ctx : Ctx) (s : ServerState) : StepResult :=
  let inner : ServerState × List Emit × List Timer :=
    match alookup sid s.players with
    | none => (s, [], [])
    | some player =>
      match player.roomCode with
      | none => (s, [], [])
      | some code =>
        match getRoomRef code s with
        | none => (s, [], [])
        | some (ref, room) =>
          let players1 := room.players.filter (fun p => ¬(p.socketId = sid))
          let room1 := { room with players := players1 }
          let e1 := Emit.roomPlayerLeft (some code) sid player.name room1
          if players1.isEmpty then
            ({ s with roomHeap := aset ref ({ room1 with emptyAt := some ctx.now }) s.roomHeap },
             [e1], [.emptyRoom code ref 30000])
          else
            ({ s with roomHeap := aset ref room1 s.roomHeap }, [e1], [])
  let players2 := aerase sid inner.1.players
  let s2 := { inner.1 with
    waitingPlayers := inner.1.waitingPlayers.erase sid,
    players := players2 }
  ⟨s2, inner.2.1 ++ [.playersOnline players2.length (getOnlinePlayers players2)], inner.2.2⟩

/-- The 4s timer scheduled by `player:ready`: emits `game:start { room }` to
`player.roomCode` (read from the closure at fire time) with no state
change and no staleness check. -/

def fireLobbyStartH (playerRoomCode : Option String) (ref : Nat)
    (s : ServerState) : StepResult :=
  match alookup ref s.roomHeap with
  | none => noop s
  | some room => ⟨s, [.gameStart playerRoomCode room], []⟩

/-- The 4s countdown timer scheduled by `player:game-ready`: unconditionally
sets the captured room object to `playing`, stamps `startTime = Date.now()`
and emits `game:race-start` — the source performs no existence or state
re-check.  (`none` on the heap lookup cannot occur for refs the handlers
created; it is the totality completion.) -/

def fireRaceStartH (playerRoomCode : Option String) (ref : Nat) (ctx : Ctx)
    (s : ServerState) : StepResult :=
  match alookup ref s.roomHeap with
  | none => noop s
  | some room =>
    let room1 := { room with gameState := .playing, startTime := some ctx.now }
    ⟨{ s with roomHeap := aset ref room1 s.roomHeap },
      [.gameRaceStart playerRoomCode room1], []⟩

/-- The 10s rematch timer scheduled by `player:finished`: guarded by
`if (room && rooms.has(player.roomCode))` — the captured room object is
always truthy, and the map is probed with the *finisher's current*
`roomCode`, not the room's own code.  When the guard passes, the captured
room is reset to `in-game-lobby` with winner/timestamps cleared and every
player's stats zeroed, and `room:reset` is broadcast. -/

def fireRematchH (playerRoomCode : Option String) (ref : Nat)
    (s : ServerState) : StepResult :=
  match alookup ref s.roomHeap with
  | none => noop s
  | some room =>
    if (playerRoomCode.bind (fun c => alookup c s.rooms)).isSome then
      let room1 := { room with
        gameState := .inGameLobby, winner := none,
        startTime := none, endTime := none, raceTimeMs := none,
        players := room.players.map (fun (p : RoomPlayer) =>
          { p with
            position := 0,
            progress := 0,
            score := 0,
            combo := 0,
            ready := false,
            gameReady := false }) }
      ⟨{ s with roomHeap := aset ref room1 s.roomHeap },
        [.roomReset playerRoomCode room1], []⟩
    else noop s

/-- The 30s empty-room timer scheduled by `disconnect`: re-checks that the
captured room object is still empty and that the code still resolves before
deleting the map entry.  (The captured `player.roomCode` is frozen at
schedule time: the handler deletes the player from the registry right
after.) -/

def fireEmptyRoomH (code : String) (ref : Nat) (s : ServerState) : StepResult :=
  match alookup ref s.roomHeap with
  | none => noop s
  | some room =>
    if room.players.isEmpty ∧ (alookup code s.rooms).isSome then
      ⟨{ s with rooms := aerase code s.rooms }, [], []⟩
    else noop s

/-- The 30s matchmaking timeout scheduled by `match:random`: if the requester
is still queued, remove it and emit `match:timeout`. -/

def fireMatchTimeoutH (sid : String) (s : ServerState) : StepResult :=
  if sid ∈ s.waitingPlayers then
    ⟨{ s with waitingPlayers := s.waitingPlayers.erase sid }, [.matchTimeout sid], []⟩
  else noop s

/-- One inbound socket message (with the payload shape the wire can carry:
`none` = missing/undefined payload) or one timer firing.  The `fire*`
variants carry what the source closure reads at fire time: the room object
reference and `player.roomCode`. -/

inductive Msg where
  | syncRequest (sid : String) (payload : Option (Option String))
  | register (sid : String) (payload : Option String)
  | updateName (sid : String) (payload : Option String)
  | createRoom (sid : String) (roomName : Option String) (maxPlayers : Option Nat)
  | joinRoom (sid : String) (payload : Option (Option String))
  | matchRandom (sid : String)
  | playerReady (sid : String)
  | gameReady (sid : String)
  | playerUpdate (sid : String) (payload : Option UpdateData)
  | playerFinished (sid : String)
  | roomLeave (sid : String)
  | chatSend (sid : String) (payload : Option ChatData)
  | disconnect (sid : String)
  | fireLobbyStart (playerRoomCode : Option String) (ref : Nat)
  | fireRaceStart (playerRoomCode : Option String) (ref : Nat)
  | fireRematch (playerRoomCode : Option String) (ref : Nat)
  | fireEmptyRoom (code : String) (ref : Nat)
  | fireMatchTimeout (sid : String)
deriving DecidableEq, Repr

/-- The single-threaded event loop step: dispatch one message or timer to its
handler. -/

def step (m : Msg) (ctx : Ctx) (s : ServerState) : HResult :=
  match m with
  | .syncRequest sid payload => syncRequestH sid payload s
  | .register sid payload => registerH sid payload s
  | .updateName sid payload => updateNameH sid payload s
  | .createRoom sid roomName maxPlayers => .ok (createRoomH sid roomName maxPlayers ctx s)
  | .joinRoom sid payload => joinRoomH sid payload s
  | .matchRandom sid => .ok (matchRandomH sid ctx s)
  | .playerReady sid => .ok (playerReadyH sid s)
  | .gameReady sid => .ok (gameReadyH sid ctx s)
  | .playerUpdate sid payload => playerUpdateH sid payload s
  | .playerFinished sid => .ok (playerFinishedH sid ctx s)
  | .roomLeave sid => .ok (roomLeaveH sid s)
  | .chatSend sid payload => chatSendH sid payload ctx s
  | .disconnect sid => .ok (disconnectH sid ctx s)
  | .fireLobbyStart prc ref => .ok (fireLobbyStartH prc ref s)
  | .fireRaceStart prc ref => .ok (fireRaceStartH prc ref ctx s)
  | .fireRematch prc ref => .ok (fireRematchH prc ref s)
  | .fireEmptyRoom code ref => .ok (fireEmptyRoomH code ref s)
  | .fireMatchTimeout sid => .ok (fireMatchTimeoutH sid s)

/-- The event name the bundled client subscribes to for the countdown
(src/game-multiplayer-client-new.js line 184). -/

def clientCountdownEventName : String := "game:countdown-start"

/-- The timestamp fields that client handler reads from the payload
(`data.countdownStartTime`, `data.raceStartTime`). -/

def clientCountdownTimestampKeys : List String :=
  ["countdownStartTime", "raceStartTime"]

/-- The field the client's `room:joined` handler reads to learn its slot
(`myPlayerIndex = data.playerIndex`, line 46). -/

def clientJoinedIndexKey : String := "playerIndex"

/-! Generic facts about the association-list operations, shared by the
claim proofs. -/

/-! Concrete scenario material shared by several claims. -/

/-- Player records for the two concrete participants used in scenarios. -/

def rpA : RoomPlayer := newRoomPlayer "A" "alice"

/-- A second concrete participant. -/

def rpB : RoomPlayer := newRoomPlayer "B" "bob"

/-- A registry entry seated in a room. -/

def pdIn (sid nm code : String) : PlayerData :=
  { socketId := sid, name := nm, inGame := true, roomCode := some code }

/-- A registry entry not seated anywhere. -/

def pdOut (sid nm : String) : PlayerData :=
  { socketId := sid, name := nm, inGame := false, roomCode := none }

/-- A room with code "R1" hosted by "A", as match/create would shape it. -/

def baseRoom (ps : List RoomPlayer) (gs : GameState) : Room :=
  { code := "R1", name := none, host := "A", players := ps, gameState := gs,
    winner := none, createdAt := 0, maxPlayers := none, startTime := none,
    endTime := none, raceTimeMs := none, emptyAt := none }

/-- A server state holding exactly one room, "R1", at heap reference 0. -/

def stateWith (room : Room) (ps : List (String × PlayerData)) : ServerState :=
  { roomHeap := [(0, room)], rooms := [("R1", 0)], players := ps,
    waitingPlayers := [], nextRef := 1 }

/-- A context at time `t`, generating fresh code "R2", all sockets
connected. -/

def ctxAt (t : Nat) : Ctx :=
  { now := t, freshCode := "R2", isConnected := fun _ => true }

/-! Claim theorems. -/

/-- The concrete state for C1: room "R1" in `in-game-lobby`, participant "A"
already game-ready, both participants registered and connected. -/

def c1state : ServerState :=
  stateWith (baseRoom [{ rpA with gameReady := true }, rpB] .inGameLobby)
    [("A", pdIn "A" "alice" "R1"), ("B", pdIn "B" "bob" "R1")]

/-- The concrete state for C2: room "R1" waiting with one seated
participant "A"; "B" is registered and unseated. -/

def c2state : ServerState :=
  { roomHeap := [(0, baseRoom [rpA] .waiting)], rooms := [("R1", 0)],
    players := [("A", pdIn "A" "alice" "R1"), ("B", pdOut "B" "bob")],
    waitingPlayers := [], nextRef := 1 }

/-- The concrete state shared by the C3 scenarios: room "R1" waiting with
its single participant "A" seated. -/
def c3state : ServerState :=
  stateWith (baseRoom [rpA] .waiting) [("A", pdIn "A" "alice" "R1")]

/-- The concrete state for C7: room "R1" was in `countdown` when both
participants left through `room:leave`; the second leave emptied it and
deleted its map entry synchronously, but the scheduled race-start timer
still holds the room object (heap reference 0) and the leaver's
`roomCode` is now null. -/

def c7state : ServerState :=
  { roomHeap := [(0, baseRoom [] .countdown)], rooms := [],
    players := [("A", pdOut "A" "alice"), ("B", pdOut "B" "bob")],
    waitingPlayers := [], nextRef := 1 }

/-- The concrete state for C10: "A" registered and already the sole queued
waiter. -/
def c10state : ServerState :=
  { roomHeap := [], rooms := [], players := [("A", pdOut "A" "alice")],
    waitingPlayers := ["A"], nextRef := 0 }

/-- The concrete state for C4: a race in progress in "R1" (started at 500)
with both participants seated. -/
def c4state : ServerState :=
  stateWith ({ baseRoom [rpA, rpB] .playing with startTime := some 500 })
    [("A", pdIn "A" "alice" "R1"), ("B", pdIn "B" "bob" "R1")]

/-- The concrete state for C6: room "R1" exists, is waiting and holds a
single participant; the join requester "X" will not be registered. -/
def c6state : ServerState :=
  stateWith (baseRoom [rpA] .waiting) [("A", pdIn "A" "alice" "R1")]

/-- The concrete room for C8: a finished race in "R1", won by "A", with both
participants still listed. -/

def c8room : Room :=
  { baseRoom [rpA, rpB] .finished with
    winner := some "A", startTime := some 500, endTime := some 900,
    raceTimeMs := some 400 }

/-- The concrete state for C8: the finished room with both participants
registered and seated. -/

def c8state : ServerState :=
  stateWith c8room [("A", pdIn "A" "alice" "R1"), ("B", pdIn "B" "bob" "R1")]

/-! Infrastructure for the two-participant invariant (C5). -/

/-- Every room object in a heap holds at most two players. -/

def HeapBound (h : List (Nat × Room)) : Prop :=
  ∀ pr ∈ h, pr.2.players.length ≤ 2

/-- Every room object in the server state holds at most two players.  This
covers every room the `rooms` map can resolve (and stale captured objects
besides). -/

def RoomsBound (s : ServerState) : Prop := HeapBound s.roomHeap

theorem alookup_mem {κ α : Type} [DecidableEq κ] {k : κ} {v : α} :
    ∀ {l : List (κ × α)}, alookup k l = some v → (k, v) ∈ l := by
  intro l
  induction l with
  | nil => intro h; simp [alookup] at h
  | cons hd tl ih =>
    obtain ⟨k1, v1⟩ := hd
    intro h
    simp only [alookup] at h
    split at h
    · rename_i heq
      cases h
      subst heq
      exact List.mem_cons_self _ _
    · exact List.mem_cons_of_mem _ (ih h)

theorem mem_aset {κ α : Type} [DecidableEq κ] {k : κ} {v : α} {p : κ × α} :
    ∀ {l : List (κ × α)}, p ∈ aset k v l → p = (k, v) ∨ p ∈ l := by
  intro l
  induction l with
  | nil => intro h; simp [aset] at h; left; simp [h]
  | cons hd tl ih =>
    intro h
    simp only [aset] at h
    split at h
    · rcases List.mem_cons.1 h with h1 | h1
      · left; exact h1
      · right; exact List.mem_cons_of_mem _ h1
    · rcases List.mem_cons.1 h with h1 | h1
      · right; simp [h1]
      · rcases ih h1 with h2 | h2
        · left; exact h2
        · right; exact List.mem_cons_of_mem _ h2

theorem mem_aerase {κ α : Type} [DecidableEq κ] {k : κ} {p : κ × α} :
    ∀ {l : List (κ × α)}, p ∈ aerase k l → p ∈ l := by
  intro l
  induction l with
  | nil => intro h; simp [aerase] at h
  | cons hd tl ih =>
    intro h
    simp only [aerase] at h
    split at h
    · exact List.mem_cons_of_mem _ h
    · rcases List.mem_cons.1 h with h1 | h1
      · simp [h1]
      · exact List.mem_cons_of_mem _ (ih h1)

theorem alookup_aset_self {κ α : Type} [DecidableEq κ] {k : κ} {v : α} :
    ∀ {l : List (κ × α)}, alookup k (aset k v l) = some v := by
  intro l
  induction l with
  | nil => simp [aset, alookup]
  | cons hd tl ih =>
    simp only [aset]
    split
    · simp [alookup]
    · rename_i hne
      simp only [alookup]
      split
      · exact absurd (by assumption) hne
      · exact ih

theorem length_setFirstRP (sid : String) (f : RoomPlayer → RoomPlayer) :
    ∀ l : List RoomPlayer, (setFirstRP sid f l).length = l.length := by
  intro l
  induction l with
  | nil => rfl
  | cons hd tl ih =>
    simp only [setFirstRP]
    split
    · simp
    · simp [ih]

/-- C9: the claim says every inbound handler terminates normally on any
payload, converting errors to a reported failure.  The `room:join` handler
refutes it: its first statement destructures the payload
(`const { roomCode } = data`), so a `room:join` with a missing/undefined
payload throws a TypeError that nothing in server.js catches — in every
server state, not an error reply. -/
theorem C9_join_handler_throws_on_missing_payload :
    ∀ (sid : String) (ctx : Ctx) (s : ServerState),
      step (.joinRoom sid none) ctx s = .error () := by
  intro sid ctx s
  rfl

/-- C1: the claim says the countdown-start broadcast carries the two
absolute timestamps `countdownDeadline` and `raceStartTimestamp`.  Running
the second `player:game-ready` at the failing input shows the divergence:
the countdown broadcast is `game:verified-countdown { room }` — its payload
keys are exactly `["room"]`, neither timestamp field the bundled client
reads is present, the room's `startTime` is still unset when the broadcast
is emitted (it is recomputed from `Date.now()` only when the 4s timer
fires), and no emit at all uses the `game:countdown-start` event name the
client subscribes to. -/
theorem C1_countdown_broadcast_carries_no_timestamps :
    ∃ room2,
      step (.gameReady "B") (ctxAt 2000) c1state =
        .ok ⟨{ c1state with roomHeap := aset 0 room2 c1state.roomHeap },
             [.gamePlayersUpdate (some "R1")
                [⟨"A", "alice", true⟩, ⟨"B", "bob", true⟩],
              .gameVerifiedCountdown (some "R1") room2],
             [.raceStart "B" 0 4000]⟩ ∧
      room2.gameState = .countdown ∧
      room2.startTime = none ∧
      payloadKeys (.gameVerifiedCountdown (some "R1") room2) = ["room"] ∧
      (∀ k ∈ clientCountdownTimestampKeys,
        k ∉ payloadKeys (.gameVerifiedCountdown (some "R1") room2)) ∧
      (∀ e ∈ [Emit.gamePlayersUpdate (some "R1")
                [⟨"A", "alice", true⟩, ⟨"B", "bob", true⟩],
              Emit.gameVerifiedCountdown (some "R1") room2],
        eventName e ≠ clientCountdownEventName) := by
  refine ⟨{ baseRoom [{ rpA with gameReady := true }, { rpB with gameReady := true }]
      .inGameLobby with gameState := .countdown }, rfl, rfl, rfl, rfl, ?_, ?_⟩
  · decide
  · decide

/-- C2: the claim says the join acknowledgement includes the joiner's
assigned slotIndex.  Running a valid join shows the divergence: the new
participant is appended and the roster broadcast goes out, but the
acknowledgement `room:joined` carries exactly the keys
`["roomCode", "room"]` — the `playerIndex` field the bundled client reads
(`myPlayerIndex = data.playerIndex`) is not among them. -/
theorem C2_join_ack_lacks_slot_index :
    ∃ room1,
      step (.joinRoom "B" (some (some "R1"))) (ctxAt 1500) c2state =
        .ok ⟨{ c2state with
                roomHeap := aset 0 room1 c2state.roomHeap,
                players := aset "B" (pdIn "B" "bob" "R1") c2state.players },
             [.roomJoined "B" "R1" room1,
              .roomUpdated (some "R1") room1 2],
             []⟩ ∧
      room1.players = [rpA, rpB] ∧
      payloadKeys (.roomJoined "B" "R1" room1) = ["roomCode", "room"] ∧
      clientJoinedIndexKey ∉ payloadKeys (.roomJoined "B" "R1" room1) := by
  refine ⟨baseRoom [rpA, rpB] .waiting, rfl, rfl, rfl, ?_⟩
  decide

/-- C3 counterexample: the claim says an emptied session is never deleted
synchronously, whichever way it emptied.  An explicit `room:leave` by the
last participant refutes it: the session exists before the handler and its
map entry is gone in the very same handler run, with no grace timer
scheduled. -/
theorem C3_leave_deletes_immediately :
    alookup "R1" c3state.rooms = some 0 ∧
    ∃ r, step (.roomLeave "A") (ctxAt 3000) c3state = .ok r ∧
      alookup "R1" r.state.rooms = none ∧
      r.timers = [] := by
  refine ⟨rfl, _, rfl, ?_, rfl⟩
  decide

/-- C7: the claim says the countdown timer callback is a no-op when its
session no longer exists.  The source callback
(`room.gameState = 'playing'; room.startTime = Date.now();
io.to(player.roomCode).emit('game:race-start', { room })`) re-checks
nothing: fired against the torn-down session it still flips the captured
room object to `playing`, stamps a fresh `startTime` and emits the
race-start broadcast. -/
theorem C7_countdown_timer_fires_on_deleted_room :
    alookup "R1" c7state.rooms = none ∧
    ∃ room1,
      step (.fireRaceStart none 0) (ctxAt 5000) c7state =
        .ok ⟨{ c7state with roomHeap := aset 0 room1 c7state.roomHeap },
             [.gameRaceStart none room1], []⟩ ∧
      room1.gameState = .playing ∧
      room1.startTime = some 5000 := by
  refine ⟨rfl, ?_⟩
  refine ⟨{ baseRoom [] .countdown with
    gameState := .playing,
    startTime := some 5000 }, rfl, rfl, rfl⟩

/-- C10: if a connection is already the sole queued waiter and sends
`match:random` again, the handler pops that same connection as its own
opponent; its registry entry is still valid, so a session is created whose
two participants both carry the requester's connectionId and name, hosted
by the requester, and the requester is no longer queued. -/
theorem C10_self_match_when_requeued :
    ∀ (sid : String) (ctx : Ctx) (s : ServerState) (pd : PlayerData),
      alookup sid s.players = some pd →
      s.waitingPlayers = [sid] →
      ∃ r room, step (.matchRandom sid) ctx s = .ok r ∧
        getRoom ctx.freshCode r.state = some room ∧
        room.players = [newRoomPlayer sid pd.name, newRoomPlayer sid pd.name] ∧
        room.host = sid ∧
        r.emits = [.matchFound (some ctx.freshCode) ctx.freshCode room] ∧
        r.state.waitingPlayers = [] ∧
        alookup sid r.state.players =
          some { pd with roomCode := some ctx.freshCode, inGame := true } := by
  intro sid ctx s pd h1 h2
  simp only [step, matchRandomH, h1, h2]
  exact ⟨_, _, rfl, by simp [getRoom, getRoomRef, alookup_aset_self],
    rfl, rfl, rfl, rfl, by simp [alookup_aset_self]⟩

/-- C10 witness: the self-match theorem applied to the concrete queued
requester "A". -/
theorem C10_self_match_when_requeued_witness :
    ∃ r room, step (.matchRandom "A") (ctxAt 0) c10state = .ok r ∧
      getRoom (ctxAt 0).freshCode r.state = some room ∧
      room.players = [newRoomPlayer "A" (pdOut "A" "alice").name,
                      newRoomPlayer "A" (pdOut "A" "alice").name] ∧
      room.host = "A" ∧
      r.emits = [.matchFound (some (ctxAt 0).freshCode) (ctxAt 0).freshCode room] ∧
      r.state.waitingPlayers = [] ∧
      alookup "A" r.state.players =
        some { pdOut "A" "alice" with roomCode := some (ctxAt 0).freshCode, inGame := true } :=
  C10_self_match_when_requeued "A" (ctxAt 0) c10state (pdOut "A" "alice")
    (by decide) (by decide)

/-- C4: first-caller-wins.  Part 1: while the room is `playing` with no
winner, a finish signal sets the winner to the caller, moves the room to
`finished`, stamps `endTime = now`, computes the elapsed race time as
`endTime - startTime`, and broadcasts `game:finished` with the winner's
identity, score and that elapsed time (scheduling the 10s rematch timer).
Part 2: once the room is no longer `playing` — in particular right after the
first finish — any further finish signal leaves the state untouched and
emits nothing.  Part 3: even in a `playing` room, a set winner suppresses
any re-trigger. -/
theorem C4_first_finish_wins :
    (∀ (sid : String) (ctx : Ctx) (s : ServerState) (pd : PlayerData)
        (code : String) (ref : Nat) (room : Room),
      alookup sid s.players = some pd →
      pd.roomCode = some code →
      getRoomRef code s = some (ref, room) →
      room.gameState = .playing →
      room.winner = none →
      ∃ room1,
        room1 = { room with
          winner := some sid, gameState := .finished,
          endTime := some ctx.now,
          raceTimeMs := some (ctx.now - room.startTime.getD 0) } ∧
        step (.playerFinished sid) ctx s =
          .ok ⟨{ s with roomHeap := aset ref room1 s.roomHeap },
               [.gameFinished (some code) sid pd.name
                  (match room.players.find? (fun p => decide (p.socketId = sid)) with
                   | some p => p.score
                   | none => 0)
                  (ctx.now - room.startTime.getD 0) room1],
               [.rematch sid ref 10000]⟩)
    ∧ (∀ (sid : String) (ctx : Ctx) (s : ServerState) (pd : PlayerData)
        (code : String) (ref : Nat) (room : Room),
      alookup sid s.players = some pd →
      pd.roomCode = some code →
      getRoomRef code s = some (ref, room) →
      room.gameState ≠ .playing →
      step (.playerFinished sid) ctx s = .ok ⟨s, [], []⟩)
    ∧ (∀ (sid w : String) (ctx : Ctx) (s : ServerState) (pd : PlayerData)
        (code : String) (ref : Nat) (room : Room),
      alookup sid s.players = some pd →
      pd.roomCode = some code →
      getRoomRef code s = some (ref, room) →
      room.gameState = .playing →
      room.winner = some w →
      step (.playerFinished sid) ctx s = .ok ⟨s, [], []⟩) := by
  refine ⟨?_, ?_, ?_⟩
  · intro sid ctx s pd code ref room h1 h2 h3 h4 h5
    refine ⟨_, rfl, ?_⟩
    simp only [step, playerFinishedH, h1, h2, h3, h4, h5, if_pos]
  · intro sid ctx s pd code ref room h1 h2 h3 h4
    simp only [step, playerFinishedH, h1, h2, h3]
    rw [if_neg h4]
    rfl
  · intro sid w ctx s pd code ref room h1 h2 h3 h4 h5
    simp only [step, playerFinishedH, h1, h2, h3, h4, h5, if_pos]
    rfl

/-- C4 witness: the finish theorem applied at the concrete input — "A"
finishes at time 1200 in the room that started at 500, winning with elapsed
700 ms; then part 2 applied to the post-finish room shows the second finish
signal is a no-op. -/
theorem C4_first_finish_wins_witness :
    (∃ room1,
      step (.playerFinished "A") (ctxAt 1200) c4state =
        .ok ⟨{ c4state with roomHeap := aset 0 room1 c4state.roomHeap },
             [.gameFinished (some "R1") "A" "alice" 0 700 room1],
             [.rematch "A" 0 10000]⟩ ∧
      room1.winner = some "A" ∧ room1.gameState = .finished ∧
      room1.endTime = some 1200 ∧ room1.raceTimeMs = some 700) ∧
    step (.playerFinished "B") (ctxAt 1300)
        (stateWith ({ baseRoom [rpA, rpB] .playing with
            startTime := some 500, winner := some "A",
            gameState := .finished, endTime := some 1200,
            raceTimeMs := some 700 })
          [("A", pdIn "A" "alice" "R1"), ("B", pdIn "B" "bob" "R1")]) =
      .ok ⟨stateWith ({ baseRoom [rpA, rpB] .playing with
            startTime := some 500, winner := some "A",
            gameState := .finished, endTime := some 1200,
            raceTimeMs := some 700 })
          [("A", pdIn "A" "alice" "R1"), ("B", pdIn "B" "bob" "R1")], [], []⟩ := by
  constructor
  · obtain ⟨room1, hdef, hstep⟩ := C4_first_finish_wins.1 "A" (ctxAt 1200) c4state
      (pdIn "A" "alice" "R1") "R1" 0
      ({ baseRoom [rpA, rpB] .playing with startTime := some 500 })
      (by decide) rfl (by decide) rfl rfl
    refine ⟨room1, ?_, ?_, ?_, ?_, ?_⟩
    · exact hstep
    · subst hdef; rfl
    · subst hdef; rfl
    · subst hdef; rfl
    · subst hdef; rfl
  · exact C4_first_finish_wins.2.1 "B" (ctxAt 1300) _ (pdIn "B" "bob" "R1") "R1" 0
      ({ baseRoom [rpA, rpB] .playing with
          startTime := some 500, winner := some "A",
          gameState := .finished, endTime := some 1200,
          raceTimeMs := some 700 })
      (by decide) rfl (by decide) (by decide)

/-- C6 counterexample: the claim says a join fails exactly when the code
does not resolve, the session is full, or the state is neither Waiting nor
Finished.  Here the code resolves, the session has one participant and is
`waiting` — all three enumerated conditions are false — yet the join from
the unregistered connection "X" is rejected, so the "exactly when" is
false. -/
theorem C6_unregistered_join_rejected :
    getRoom "R1" c6state = some (baseRoom [rpA] .waiting) ∧
    (baseRoom [rpA] .waiting).players.length = 1 ∧
    (baseRoom [rpA] .waiting).gameState = .waiting ∧
    step (.joinRoom "X" (some (some "R1"))) (ctxAt 0) c6state =
      .ok ⟨c6state, [.roomError "X" "Player not registered"], []⟩ :=
  ⟨rfl, rfl, rfl, rfl⟩

/-- C6 as amended: a `room:join` with a present payload is rejected — with
an error reported only to the requester and the whole server state
unchanged — exactly when the requester is unregistered, the code does not
resolve, the session already has two participants, or the session state is
`countdown` or `playing`; in the remaining states (`waiting`,
`in-game-lobby` — the rematch lobby the spec folds into Waiting — and
`finished`) the join succeeds, appending the participant and broadcasting
the updated roster. -/
theorem C6_join_contract_amended :
    ∀ (sid : String) (rc : Option String) (ctx : Ctx) (s : ServerState),
      (alookup sid s.players = none →
        step (.joinRoom sid (some rc)) ctx s =
          .ok ⟨s, [.roomError sid "Player not registered"], []⟩) ∧
      (∀ pd, alookup sid s.players = some pd → rc = none →
        step (.joinRoom sid (some rc)) ctx s =
          .ok ⟨s, [.roomError sid "Room not found"], []⟩) ∧
      (∀ pd code, alookup sid s.players = some pd → rc = some code →
        getRoomRef code s = none →
        step (.joinRoom sid (some rc)) ctx s =
          .ok ⟨s, [.roomError sid "Room not found"], []⟩) ∧
      (∀ pd code ref room, alookup sid s.players = some pd → rc = some code →
        getRoomRef code s = some (ref, room) → 2 ≤ room.players.length →
        step (.joinRoom sid (some rc)) ctx s =
          .ok ⟨s, [.roomError sid "Room is full"], []⟩) ∧
      (∀ pd code ref room, alookup sid s.players = some pd → rc = some code →
        getRoomRef code s = some (ref, room) → room.players.length < 2 →
        room.gameState = .countdown ∨ room.gameState = .playing →
        step (.joinRoom sid (some rc)) ctx s =
          .ok ⟨s, [.roomError sid
            "Game in progress. Please wait for the race to finish."], []⟩) ∧
      (∀ pd code ref room, alookup sid s.players = some pd → rc = some code →
        getRoomRef code s = some (ref, room) → room.players.length < 2 →
        room.gameState = .waiting ∨ room.gameState = .inGameLobby ∨
          room.gameState = .finished →
        ∃ room1,
          room1 = { room with players := room.players ++ [newRoomPlayer sid pd.name] } ∧
          step (.joinRoom sid (some rc)) ctx s =
            .ok ⟨{ s with
                roomHeap := aset ref room1 s.roomHeap,
                players := aset sid ({ pd with roomCode := some code, inGame := true }) s.players },
              [.roomJoined sid code room1,
               .roomUpdated (some code) room1 room1.players.length],
              []⟩) := by
  intro sid rc ctx s
  refine ⟨?_, ?_, ?_, ?_, ?_, ?_⟩
  · intro h1
    simp only [step, joinRoomH, h1]
  · intro pd h1 h2
    subst h2
    simp only [step, joinRoomH, h1]
  · intro pd code h1 h2 h3
    subst h2
    simp only [step, joinRoomH, h1, h3]
  · intro pd code ref room h1 h2 h3 h4
    subst h2
    simp only [step, joinRoomH, h1, h3]
    rw [if_pos h4]
  · intro pd code ref room h1 h2 h3 h4 h5
    subst h2
    simp only [step, joinRoomH, h1, h3]
    rw [if_neg (by omega), if_neg ?_]
    rcases h5 with h5 | h5 <;> simp [h5]
  · intro pd code ref room h1 h2 h3 h4 h5
    subst h2
    refine ⟨_, rfl, ?_⟩
    simp only [step, joinRoomH, h1, h3]
    rw [if_neg (by omega), if_pos h5]

/-- C6 witness: the amended join contract applied at a concrete success —
"B" joins the waiting one-seat room — discharging every hypothesis. -/
theorem C6_join_contract_amended_witness :
    ∃ room1,
      room1 = { baseRoom [rpA] .waiting with
        players := (baseRoom [rpA] .waiting).players ++ [newRoomPlayer "B" (pdOut "B" "bob").name] } ∧
      step (.joinRoom "B" (some (some "R1"))) (ctxAt 0) c2state =
        .ok ⟨{ c2state with
            roomHeap := aset 0 room1 c2state.roomHeap,
            players := aset "B" ({ pdOut "B" "bob" with roomCode := some "R1", inGame := true }) c2state.players },
          [.roomJoined "B" "R1" room1,
           .roomUpdated (some "R1") room1 room1.players.length],
          []⟩ :=
  (C6_join_contract_amended "B" (some "R1") (ctxAt 0) c2state).2.2.2.2.2
    (pdOut "B" "bob") "R1" 0 (baseRoom [rpA] .waiting)
    (by decide) rfl (by decide) (by decide) (Or.inl rfl)

/-- C3 as amended: the grace behaviour belongs to the disconnect path only.
Part 1: a disconnect that empties the session keeps its map entry, stamps
`emptyAt` and schedules the 30s deletion timer.  Part 2: when that timer
fires it deletes the session only if the captured room object is still
empty and the code still resolves; a refilled room is untouched.  Part 3:
an explicit `room:leave` that empties the session removes its map entry in
the same handler run, with no timer. -/
theorem C3_grace_on_disconnect_only :
    (∀ (sid : String) (ctx : Ctx) (s : ServerState) (pd : PlayerData)
        (code : String) (ref : Nat) (room : Room),
      alookup sid s.players = some pd →
      pd.roomCode = some code →
      getRoomRef code s = some (ref, room) →
      room.players.filter (fun p => ¬(p.socketId = sid)) = [] →
      ∃ r, step (.disconnect sid) ctx s = .ok r ∧
        r.state.rooms = s.rooms ∧
        r.timers = [.emptyRoom code ref 30000] ∧
        alookup ref r.state.roomHeap =
          some { room with players := [], emptyAt := some ctx.now })
    ∧ (∀ (code : String) (ref : Nat) (ctx : Ctx) (s : ServerState) (room : Room),
      alookup ref s.roomHeap = some room →
      (room.players ≠ [] →
        step (.fireEmptyRoom code ref) ctx s = .ok ⟨s, [], []⟩) ∧
      (room.players = [] → (alookup code s.rooms).isSome →
        step (.fireEmptyRoom code ref) ctx s =
          .ok ⟨{ s with rooms := aerase code s.rooms }, [], []⟩) ∧
      (room.players = [] → alookup code s.rooms = none →
        step (.fireEmptyRoom code ref) ctx s = .ok ⟨s, [], []⟩))
    ∧ (∀ (sid : String) (ctx : Ctx) (s : ServerState) (pd : PlayerData)
        (code : String) (ref : Nat) (room : Room),
      alookup sid s.players = some pd →
      pd.roomCode = some code →
      getRoomRef code s = some (ref, room) →
      room.players.filter (fun p => ¬(p.socketId = sid)) = [] →
      ∃ r, step (.roomLeave sid) ctx s = .ok r ∧
        r.state.rooms = aerase code s.rooms ∧
        r.timers = []) := by
  refine ⟨?_, ?_, ?_⟩
  · intro sid ctx s pd code ref room h1 h2 h3 h4
    simp only [step, disconnectH, h1, h2, h3, h4, List.isEmpty_nil, if_pos]
    exact ⟨_, rfl, rfl, rfl, alookup_aset_self⟩
  · intro code ref ctx s room h1
    refine ⟨?_, ?_, ?_⟩
    · intro h2
      simp only [step, fireEmptyRoomH, h1]
      rw [if_neg ?_]
      · rfl
      · simp [h2]
    · intro h2 h3
      simp only [step, fireEmptyRoomH, h1]
      rw [if_pos ?_]
      simp [h2, h3]
    · intro h2 h3
      simp only [step, fireEmptyRoomH, h1]
      rw [if_neg ?_]
      · rfl
      · simp [h2, h3]
  · intro sid ctx s pd code ref room h1 h2 h3 h4
    simp only [step, roomLeaveH, h1, h2, h3, h4, List.isEmpty_nil, if_pos]
    exact ⟨_, rfl, rfl, rfl⟩

/-- C3 witness: the disconnect-grace part applied to the concrete one-seat
waiting room (the same room used for the counterexample), showing the
session survives the disconnect with a 30s timer scheduled. -/
theorem C3_grace_on_disconnect_only_witness :
    ∃ r, step (.disconnect "A") (ctxAt 3000) c3state = .ok r ∧
      r.state.rooms = c3state.rooms ∧
      r.timers = [.emptyRoom "R1" 0 30000] ∧
      alookup 0 r.state.roomHeap =
        some { baseRoom [rpA] .waiting with players := [], emptyAt := some 3000 } :=
  C3_grace_on_disconnect_only.1 "A" (ctxAt 3000) c3state (pdIn "A" "alice" "R1")
    "R1" 0 (baseRoom [rpA] .waiting) (by decide) rfl (by decide) (by decide)

/-- C8 counterexample: the claim says the rematch reset runs whenever the
session still exists when the delay elapses.  Here the finisher "A" leaves
during the delay (nulling its `roomCode`), the session survives with "B"
still seated and still `finished` — yet the timer's guard
`rooms.has(player.roomCode)` probes the finisher's nulled `roomCode`, so the
reset is skipped entirely: no mutation, no `room:reset` broadcast. -/
theorem C8_reset_skipped_with_live_session :
    ∃ r1, step (.roomLeave "A") (ctxAt 1000) c8state = .ok r1 ∧
      (alookup "A" r1.state.players).bind (fun p => p.roomCode) = none ∧
      (∃ room, getRoom "R1" r1.state = some room ∧
        room.players = [rpB] ∧ room.gameState = .finished) ∧
      step (.fireRematch ((alookup "A" r1.state.players).bind (fun p => p.roomCode)) 0)
          (ctxAt 11000) r1.state =
        .ok ⟨r1.state, [], []⟩ := by
  refine ⟨_, rfl, ?_, ⟨_, rfl, ?_, rfl⟩, ?_⟩
  · decide
  · decide
  · rfl

/-- C8 as amended: when the 10s rematch timer fires, the captured room is
reset — `gameState` back to the pre-race lobby (`in-game-lobby`, the state
the spec's Finished→Waiting edge denotes), winner and race timestamps
cleared, every participant's position/progress/score/combo zeroed and
ready/gameReady cleared, the `code` unchanged, `room:reset` broadcast — if
and only if the finisher's *current* `roomCode` still resolves in the
session store; otherwise (session deleted, but also the finisher having
left or moved) the callback does nothing. -/
theorem C8_rematch_reset_amended :
    ∀ (prc : Option String) (ref : Nat) (ctx : Ctx) (s : ServerState) (room : Room),
      alookup ref s.roomHeap = some room →
      ((prc.bind (fun c => alookup c s.rooms)).isSome = false →
        step (.fireRematch prc ref) ctx s = .ok ⟨s, [], []⟩) ∧
      ((prc.bind (fun c => alookup c s.rooms)).isSome = true →
        ∃ room1,
          step (.fireRematch prc ref) ctx s =
            .ok ⟨{ s with roomHeap := aset ref room1 s.roomHeap },
                 [.roomReset prc room1], []⟩ ∧
          room1.gameState = .inGameLobby ∧
          room1.winner = none ∧
          room1.startTime = none ∧
          room1.endTime = none ∧
          room1.raceTimeMs = none ∧
          room1.code = room.code ∧
          room1.players.length = room.players.length ∧
          (∀ p ∈ room1.players, p.position = 0 ∧ p.progress = 0 ∧ p.score = 0 ∧
            p.combo = 0 ∧ p.ready = false ∧ p.gameReady = false)) := by
  intro prc ref ctx s room h1
  constructor
  · intro h2
    simp only [step, fireRematchH, h1]
    rw [if_neg ?_]
    · rfl
    · simp [h2]
  · intro h2
    simp only [step, fireRematchH, h1]
    rw [if_pos h2]
    refine ⟨_, rfl, rfl, rfl, rfl, rfl, rfl, rfl, by simp, ?_⟩
    intro p hp
    obtain ⟨q, _, rfl⟩ := List.mem_map.1 hp
    exact ⟨rfl, rfl, rfl, rfl, rfl, rfl⟩

/-- C8 witness: the amended rematch theorem applied to the concrete
finished room while the finisher's `roomCode` still resolves — the reset
happens and clears everything. -/
theorem C8_rematch_reset_amended_witness :
    ∃ room1,
      step (.fireRematch (some "R1") 0) (ctxAt 11000) c8state =
        .ok ⟨{ c8state with roomHeap := aset 0 room1 c8state.roomHeap },
             [.roomReset (some "R1") room1], []⟩ ∧
      room1.gameState = .inGameLobby ∧
      room1.winner = none ∧
      room1.startTime = none ∧
      room1.endTime = none ∧
      room1.raceTimeMs = none ∧
      room1.code = c8room.code ∧
      room1.players.length = c8room.players.length ∧
      (∀ p ∈ room1.players, p.position = 0 ∧ p.progress = 0 ∧ p.score = 0 ∧
        p.combo = 0 ∧ p.ready = false ∧ p.gameReady = false) :=
  (C8_rematch_reset_amended (some "R1") 0 (ctxAt 11000) c8state c8room (by decide)).2
    (by decide)

theorem heapBound_aset {h : List (Nat × Room)} {ref : Nat} {room : Room}
    (hb : HeapBound h) (hr : room.players.length ≤ 2) :
    HeapBound (aset ref room h) := by
  intro pr hm
  rcases mem_aset hm with h1 | h1
  · rw [h1]; exact hr
  · exact hb _ h1

theorem heapBound_lookup {h : List (Nat × Room)} {ref : Nat} {room : Room}
    (hb : HeapBound h) (hl : alookup ref h = some room) :
    room.players.length ≤ 2 :=
  hb _ (alookup_mem hl)

theorem roomsBound_getRoomRef {s : ServerState} {code : String} {ref : Nat}
    {room : Room} (hb : RoomsBound s)
    (h : getRoomRef code s = some (ref, room)) :
    room.players.length ≤ 2 := by
  unfold getRoomRef at h
  split at h
  · exact Option.noConfusion h
  · split at h
    · exact Option.noConfusion h
    · rename_i room1 hroom
      injection h with h2
      rw [Prod.mk.injEq] at h2
      obtain ⟨rfl, rfl⟩ := h2
      exact heapBound_lookup hb hroom

theorem bound_syncRequestH {sid : String} {payload : Option (Option String)}
    {s : ServerState} {r : StepResult} (hb : RoomsBound s)
    (h : syncRequestH sid payload s = .ok r) : RoomsBound r.state := by
  unfold syncRequestH at h
  split at h
  · exact Except.noConfusion h
  · split at h <;> (injection h with h; subst h; exact hb)

theorem bound_registerH {sid : String} {payload : Option String}
    {s : ServerState} {r : StepResult} (hb : RoomsBound s)
    (h : registerH sid payload s = .ok r) : RoomsBound r.state := by
  unfold registerH at h
  split at h
  · exact Except.noConfusion h
  · injection h with h; subst h; exact hb

theorem bound_updateNameH {sid : String} {payload : Option String}
    {s : ServerState} {r : StepResult} (hb : RoomsBound s)
    (h : updateNameH sid payload s = .ok r) : RoomsBound r.state := by
  unfold updateNameH at h
  split at h
  · injection h with h; subst h; exact hb
  · split at h
    · exact Except.noConfusion h
    · simp only [] at h
      split at h
      · injection h with h; subst h; exact hb
      · split at h
        · injection h with h; subst h; exact hb
        · rename_i ref room hrr
          have h2 := roomsBound_getRoomRef hb hrr
          split at h
          · injection h with h; subst h; exact hb
          · injection h with h; subst h
            exact heapBound_aset hb (by simpa [length_setFirstRP] using h2)

theorem bound_createRoomH {sid : String} {rn : Option String}
    {mp : Option Nat} {ctx : Ctx} {s : ServerState} (hb : RoomsBound s) :
    RoomsBound (createRoomH sid rn mp ctx s).state := by
  unfold createRoomH
  split
  · exact hb
  · refine heapBound_aset hb ?_
    simp

theorem bound_joinRoomH {sid : String} {payload : Option (Option String)}
    {s : ServerState} {r : StepResult} (hb : RoomsBound s)
    (h : joinRoomH sid payload s = .ok r) : RoomsBound r.state := by
  unfold joinRoomH at h
  split at h
  · exact Except.noConfusion h
  · simp only [] at h
    split at h
    · injection h with h; subst h; exact hb
    · split at h
      · injection h with h; subst h; exact hb
      · split at h
        · injection h with h; subst h; exact hb
        · rename_i ref room hrr
          split at h
          · injection h with h; subst h; exact hb
          · rename_i hfull
            split at h
            · injection h with h; subst h
              refine heapBound_aset hb ?_
              simp only [List.length_append, List.length_cons, List.length_nil]
              omega
            · injection h with h; subst h; exact hb

theorem bound_matchRandomH {sid : String} {ctx : Ctx} {s : ServerState}
    (hb : RoomsBound s) : RoomsBound (matchRandomH sid ctx s).state := by
  unfold matchRandomH
  split
  · exact hb
  · split
    · split
      · exact hb
      · refine heapBound_aset hb ?_
        simp
    · exact hb

theorem bound_playerReadyH {sid : String} {s : ServerState}
    (hb : RoomsBound s) : RoomsBound (playerReadyH sid s).state := by
  unfold playerReadyH
  split
  · exact hb
  · split
    · exact hb
    · split
      · exact hb
      · rename_i ref room hrr
        have h2 := roomsBound_getRoomRef hb hrr
        simp only []
        split
        · exact heapBound_aset hb (by simpa [length_setFirstRP] using h2)
        · exact heapBound_aset hb (by simpa [length_setFirstRP] using h2)

theorem bound_gameReadyH {sid : String} {ctx : Ctx} {s : ServerState}
    (hb : RoomsBound s) : RoomsBound (gameReadyH sid ctx s).state := by
  unfold gameReadyH
  split
  · exact hb
  · split
    · exact hb
    · split
      · exact hb
      · rename_i ref room hrr
        have h2 := roomsBound_getRoomRef hb hrr
        simp only []
        split
        · split
          · split
            · exact heapBound_aset hb (by simpa [length_setFirstRP] using h2)
            · exact heapBound_aset hb (by simpa [length_setFirstRP] using h2)
          · exact heapBound_aset hb (by simpa [length_setFirstRP] using h2)
        · exact hb

theorem bound_playerUpdateH {sid : String} {payload : Option UpdateData}
    {s : ServerState} {r : StepResult} (hb : RoomsBound s)
    (h : playerUpdateH sid payload s = .ok r) : RoomsBound r.state := by
  unfold playerUpdateH at h
  split at h
  · injection h with h; subst h; exact hb
  · split at h
    · injection h with h; subst h; exact hb
    · split at h
      · injection h with h; subst h; exact hb
      · rename_i ref room hrr
        have h2 := roomsBound_getRoomRef hb hrr
        split at h
        · split at h
          · split at h
            · exact Except.noConfusion h
            · injection h with h; subst h
              refine heapBound_aset hb ?_
              simpa [length_setFirstRP] using h2
          · injection h with h; subst h; exact hb
        · injection h with h; subst h; exact hb

theorem bound_playerFinishedH {sid : String} {ctx : Ctx} {s : ServerState}
    (hb : RoomsBound s) : RoomsBound (playerFinishedH sid ctx s).state := by
  unfold playerFinishedH
  split
  · exact hb
  · split
    · exact hb
    · split
      · exact hb
      · rename_i ref room hrr
        have h2 := roomsBound_getRoomRef hb hrr
        split
        · split
          · exact hb
          · exact heapBound_aset hb h2
        · exact hb

theorem bound_roomLeaveH {sid : String} {s : ServerState}
    (hb : RoomsBound s) : RoomsBound (roomLeaveH sid s).state := by
  unfold roomLeaveH
  split
  · exact hb
  · split
    · exact hb
    · simp only []
      split
      · exact hb
      · rename_i ref room hrr
        have h2 := roomsBound_getRoomRef hb hrr
        have h3 : (room.players.filter (fun p => ¬(p.socketId = sid))).length ≤ 2 :=
          le_trans (List.length_filter_le _ _) h2
        split
        · exact heapBound_aset hb h3
        · exact heapBound_aset hb h3

theorem bound_chatSendH {sid : String} {payload : Option ChatData}
    {ctx : Ctx} {s : ServerState} {r : StepResult} (hb : RoomsBound s)
    (h : chatSendH sid payload ctx s = .ok r) : RoomsBound r.state := by
  unfold chatSendH at h
  split at h
  · injection h with h; subst h; exact hb
  · split at h
    · exact Except.noConfusion h
    · injection h with h; subst h; exact hb

theorem bound_disconnectH {sid : String} {ctx : Ctx} {s : ServerState}
    (hb : RoomsBound s) : RoomsBound (disconnectH sid ctx s).state := by
  unfold disconnectH
  simp only []
  split
  · exact hb
  · split
    · exact hb
    · split
      · exact hb
      · rename_i ref room hrr
        have h2 := roomsBound_getRoomRef hb hrr
        have h3 : (room.players.filter (fun p => ¬(p.socketId = sid))).length ≤ 2 :=
          le_trans (List.length_filter_le _ _) h2
        split
        · exact heapBound_aset hb h3
        · exact heapBound_aset hb h3

theorem bound_fireLobbyStartH {prc : Option String} {ref : Nat}
    {s : ServerState} (hb : RoomsBound s) :
    RoomsBound (fireLobbyStartH prc ref s).state := by
  unfold fireLobbyStartH
  split <;> exact hb

theorem bound_fireRaceStartH {prc : Option String} {ref : Nat} {ctx : Ctx}
    {s : ServerState} (hb : RoomsBound s) :
    RoomsBound (fireRaceStartH prc ref ctx s).state := by
  unfold fireRaceStartH
  split
  · exact hb
  · rename_i room hl
    exact heapBound_aset hb (by simpa using heapBound_lookup hb hl)

theorem bound_fireRematchH {prc : Option String} {ref : Nat}
    {s : ServerState} (hb : RoomsBound s) :
    RoomsBound (fireRematchH prc ref s).state := by
  unfold fireRematchH
  split
  · exact hb
  · rename_i room hl
    have h2 := heapBound_lookup hb hl
    split
    · refine heapBound_aset hb ?_
      simpa using h2
    · exact hb

theorem bound_fireEmptyRoomH {code : String} {ref : Nat} {s : ServerState}
    (hb : RoomsBound s) : RoomsBound (fireEmptyRoomH code ref s).state := by
  unfold fireEmptyRoomH
  split
  · exact hb
  · split <;> exact hb

theorem bound_fireMatchTimeoutH {sid : String} {s : ServerState}
    (hb : RoomsBound s) : RoomsBound (fireMatchTimeoutH sid s).state := by
  unfold fireMatchTimeoutH
  split <;> exact hb

/-- C5: the two-participant invariant.  Part 1: every handler and timer
step preserves `RoomsBound` — no operation ever grows any room object past
two players, so at every observable instant every session holds at most two
participants.  Part 2: a join aimed at a session that already has two
participants is rejected with "Room is full" and changes nothing.  Part 3:
matchmaking pairing creates its session with exactly two participants. -/
theorem C5_sessions_hold_at_most_two :
    (∀ (m : Msg) (ctx : Ctx) (s : ServerState) (r : StepResult),
      RoomsBound s → step m ctx s = .ok r → RoomsBound r.state)
    ∧ (∀ (sid code : String) (ctx : Ctx) (s : ServerState) (pd : PlayerData)
        (ref : Nat) (room : Room),
      alookup sid s.players = some pd →
      getRoomRef code s = some (ref, room) →
      2 ≤ room.players.length →
      step (.joinRoom sid (some (some code))) ctx s =
        .ok ⟨s, [.roomError sid "Room is full"], []⟩)
    ∧ (∀ (sid oppId : String) (rest : List String) (ctx : Ctx)
        (s : ServerState) (pd opp : PlayerData),
      alookup sid s.players = some pd →
      s.waitingPlayers = oppId :: rest →
      alookup oppId s.players = some opp →
      ∃ r room, step (.matchRandom sid) ctx s = .ok r ∧
        getRoom ctx.freshCode r.state = some room ∧
        room.players.length = 2) := by
  refine ⟨?_, ?_, ?_⟩
  · intro m ctx s r hb h
    cases m with
    | syncRequest sid payload => exact bound_syncRequestH hb h
    | register sid payload => exact bound_registerH hb h
    | updateName sid payload => exact bound_updateNameH hb h
    | createRoom sid rn mp =>
      injection h with h; subst h; exact bound_createRoomH hb
    | joinRoom sid payload => exact bound_joinRoomH hb h
    | matchRandom sid =>
      injection h with h; subst h; exact bound_matchRandomH hb
    | playerReady sid =>
      injection h with h; subst h; exact bound_playerReadyH hb
    | gameReady sid =>
      injection h with h; subst h; exact bound_gameReadyH hb
    | playerUpdate sid payload => exact bound_playerUpdateH hb h
    | playerFinished sid =>
      injection h with h; subst h; exact bound_playerFinishedH hb
    | roomLeave sid =>
      injection h with h; subst h; exact bound_roomLeaveH hb
    | chatSend sid payload => exact bound_chatSendH hb h
    | disconnect sid =>
      injection h with h; subst h; exact bound_disconnectH hb
    | fireLobbyStart prc ref =>
      injection h with h; subst h; exact bound_fireLobbyStartH hb
    | fireRaceStart prc ref =>
      injection h with h; subst h; exact bound_fireRaceStartH hb
    | fireRematch prc ref =>
      injection h with h; subst h; exact bound_fireRematchH hb
    | fireEmptyRoom code ref =>
      injection h with h; subst h; exact bound_fireEmptyRoomH hb
    | fireMatchTimeout sid =>
      injection h with h; subst h; exact bound_fireMatchTimeoutH hb
  · intro sid code ctx s pd ref room h1 h3 h4
    simp only [step, joinRoomH, h1, h3]
    rw [if_pos h4]
  · intro sid oppId rest ctx s pd opp h1 h2 h3
    simp only [step, matchRandomH, h1, h2, h3]
    refine ⟨_, ⟨ctx.freshCode, none, oppId,
      [newRoomPlayer oppId opp.name, newRoomPlayer sid pd.name], .waiting, none,
      ctx.now, none, none, none, none, none⟩, rfl, ?_, by simp⟩
    simp [getRoom, getRoomRef, alookup_aset_self]

/-- C5 witness: part 1 applied to the concrete valid join of "B" into the
one-seat room (the invariant holds before and after), and part 2 applied to
a concrete full room. -/
theorem C5_sessions_hold_at_most_two_witness :
    (∃ r, step (.joinRoom "B" (some (some "R1"))) (ctxAt 0) c2state = .ok r ∧
      RoomsBound r.state) ∧
    step (.joinRoom "B" (some (some "R1"))) (ctxAt 0)
        (stateWith (baseRoom [rpA, rpB] .waiting)
          [("A", pdIn "A" "alice" "R1"), ("B", pdOut "B" "bob")]) =
      .ok ⟨stateWith (baseRoom [rpA, rpB] .waiting)
          [("A", pdIn "A" "alice" "R1"), ("B", pdOut "B" "bob")],
        [.roomError "B" "Room is full"], []⟩ := by
  constructor
  · refine ⟨_, rfl, ?_⟩
    exact C5_sessions_hold_at_most_two.1 (.joinRoom "B" (some (some "R1")))
      (ctxAt 0) c2state _ (by unfold RoomsBound HeapBound; decide) rfl
  · exact C5_sessions_hold_at_most_two.2.1 "B" "R1" (ctxAt 0)
      (stateWith (baseRoom [rpA, rpB] .waiting)
        [("A", pdIn "A" "alice" "R1"), ("B", pdOut "B" "bob")])
      (pdOut "B" "bob") 0 (baseRoom [rpA, rpB] .waiting)
      (by decide) (by decide) (by decide)

end PolyRace
